import Mathlib

/-!
Verification development for the ytmusic-mcp playlist assembly core.

The Python source (src/ytmusic_mcp/{browser_auth,playlist,server,auth,youtube_api}.py
and tools/extract_browser_auth_manual.py) is shallowly embedded below:
pure helpers become Lean functions, dictionary state becomes association
lists, exceptions become `Except`, and remote calls become oracle
parameters supplied by the caller of each embedded function.
-/

/-! ## String utilities mirroring Python primitives (on `List Char`) -/

/-- Python whitespace class used by `str.strip` and the regex class. -/
def isSpaceChar (c : Char) : Bool :=
  c == ' ' || c == '\t' || c == '\n' || c == '\r' || c == '\x0b' || c == '\x0c'

/-- Python `str.strip()` on a character list. -/
def pyStrip (cs : List Char) : List Char :=
  ((cs.dropWhile isSpaceChar).reverse.dropWhile isSpaceChar).reverse

/-- Python `str.lower()` (ASCII case fold, as used by the source). -/
def pyLower (s : String) : String :=
  ⟨s.data.map Char.toLower⟩

/-- Substring containment on character lists: Python `needle in hay`. -/
def containsSub (needle : List Char) : List Char → Bool
  | [] => needle.isEmpty
  | c :: t => needle.isPrefixOf (c :: t) || containsSub needle t

/-- Python `needle in hay` on strings. -/
def strHas (hay needle : String) : Bool :=
  containsSub needle.data hay.data

/-- Python `s.split(sep, 1)`: split at the first occurrence of a separator
character, returning `none` when the separator does not occur. -/
def splitFirst (sep : Char) : List Char → Option (List Char × List Char)
  | [] => none
  | c :: t =>
    if c == sep then some ([], t)
    else (splitFirst sep t).map (fun p => (c :: p.1, p.2))

/-! ## Candidate data model

A search result as consumed by `BrowserPlaylistManager` (browser_auth.py):
the fields the code reads via `result.get(...)`. A missing title is read as
`""` by the source, so `title` is a plain string; `album`/`duration` are
read with `None` defaults. Artists are kept as their name strings since the
source only ever reads `a["name"]`. -/

structure Candidate where
  videoId : String
  title : String
  artists : List String
  album : Option String := none
  duration : Option String := none
  isExplicit : Bool := false
  thumbnails : List String := []
deriving Repr, DecidableEq

/-! ## MatchSelector (browser_auth.py `_select_best_match`) -/

/-- Per-candidate score computed by `_select_best_match` (browser_auth.py
lines 209-242), term by term in source order. -/
def score (query : String) (r : Candidate) : Int :=
  let queryLower := pyLower query
  let titleLower := pyLower r.title
  (if strHas titleLower queryLower then 10 else 0)
  + (if ["remix", "rmx", "rework", "edit"].any (fun w => strHas titleLower w) then -5 else 0)
  + (if strHas titleLower "live" then -3 else 0)
  + (if strHas titleLower "cover" then -4 else 0)
  + (if !r.artists.isEmpty && r.artists.any (fun a => strHas (pyLower a) "topic") then 2 else 0)
  + (if strHas queryLower "explicit" && r.isExplicit then 1 else 0)

/-- Modelled from the spec (section 4.5 of spec.md), for comparison with
`score`: the same sum of terms but with the spec's five-word penalty list
"remix", "rmx", "rework", "edit", "bootleg". -/
def specScoreC1 (query : String) (r : Candidate) : Int :=
  let queryLower := pyLower query
  let titleLower := pyLower r.title
  (if strHas titleLower queryLower then 10 else 0)
  + (if ["remix", "rmx", "rework", "edit", "bootleg"].any (fun w => strHas titleLower w) then -5 else 0)
  + (if strHas titleLower "live" then -3 else 0)
  + (if strHas titleLower "cover" then -4 else 0)
  + (if !r.artists.isEmpty && r.artists.any (fun a => strHas (pyLower a) "topic") then 2 else 0)
  + (if strHas queryLower "explicit" && r.isExplicit then 1 else 0)

/-- Insert `x` (which precedes the list elements in the original order)
before the first element it is not ordered after: the insertion step of a
stable sort, where `r x y` means `x` may stay before `y`. -/
def insertS (r : α → α → Bool) (x : α) : List α → List α
  | [] => [x]
  | y :: ys => if r x y then x :: y :: ys else y :: insertS r x ys

/-- Stable sort by the relation `r` (`r x y` = `x` may come before `y`).
Python's `list.sort` is stable; a stable sort's output is uniquely
determined by the comparison and the input order, so this insertion sort
is an exact model of `scored_results.sort(key=..., reverse=True)`. -/
def sortS (r : α → α → Bool) : List α → List α
  | [] => []
  | x :: xs => insertS r x (sortS r xs)

/-- Comparison used by `_select_best_match`: sort by score descending
(`key=lambda x: x[0], reverse=True`); stability keeps earlier input
elements first on ties. -/
def scoreDescBefore (a b : Int × α) : Bool :=
  decide (b.1 ≤ a.1)

/-- `_select_best_match` (browser_auth.py lines 196-246): `None` on an
empty list, otherwise score every result, stable-sort by score descending
and return `scored_results[0][1]` (`None` again if the scored list were
empty). -/
def selectBest (searchResults : List Candidate) (query : String) : Option Candidate :=
  if searchResults.isEmpty then none
  else
    let scored := searchResults.map (fun r => (score query r, r))
    ((sortS scoreDescBefore scored).head?).map (fun p => p.2)

/-- The first element under the order `r` among `x :: xs`, with ties going
to the earlier element: the head of the corresponding stable sort. -/
def firstBy (r : α → α → Bool) (x : α) : List α → α
  | [] => x
  | y :: ys => let b := firstBy r y ys; if r x b then x else b

/-- Modelled from the spec (testable property, section 8): candidates
tagged with their `sourceRank` (input position), ordered by descending
score with ties broken by ascending rank. -/
def specRankBefore (a b : Int × Nat × Candidate) : Bool :=
  decide (b.1 < a.1 ∨ (a.1 = b.1 ∧ a.2.1 ≤ b.2.1))

/-- Modelled from the spec: the candidate list sorted by descending score,
ties broken by ascending `sourceRank` (position in the input list). -/
def specSortedCandidates (query : String) (searchResults : List Candidate) :
    List (Int × Nat × Candidate) :=
  sortS specRankBefore
    ((searchResults.enum).map (fun p => (score query p.2, p.1, p.2)))

/-! ## PlaylistAssembler (browser_auth.py `search_and_create_playlist`)

The remote `ytmusic` object is an oracle: `search` maps a query either to
its result list or to the exception it raised (`Except.error`); the
create-playlist call either raises, returns an error dict, or returns a
playlist id; the add-playlist-items call either raises or succeeds. -/

/-- One per-query entry of the `details` list built by
`search_and_create_playlist` (browser_auth.py lines 140-177). The source
emits dicts with a `reason` key for a normal miss and an `error` key for a
caught exception; both are kept as separate optional fields. -/
structure OutcomeR where
  query : String
  found : Bool
  title : Option String := none
  artists : Option String := none
  album : Option String := none
  duration : Option String := none
  videoId : Option String := none
  reason : Option String := none
  errMsg : Option String := none
deriving Repr, DecidableEq

/-- The per-query loop body of `search_and_create_playlist`: the recorded
outcome, and the video id appended to `video_ids` when a match was found. -/
def resolveOne (search : String → Except String (List Candidate)) (query : String) :
    OutcomeR × Option String :=
  match search query with
  | .error e => ({ query := query, found := false, errMsg := some e }, none)
  | .ok [] => ({ query := query, found := false, reason := some "No search results" }, none)
  | .ok (r :: rs) =>
    match selectBest (r :: rs) query with
    | none => ({ query := query, found := false, reason := some "No suitable match found" }, none)
    | some best =>
      ({ query := query, found := true,
         title := some best.title,
         artists := some (String.intercalate ", " best.artists),
         album := best.album,
         duration := best.duration,
         videoId := some best.videoId }, some best.videoId)

/-- The result dict returned by `search_and_create_playlist`
(browser_auth.py lines 187-194). -/
structure AssemblyResult where
  playlistId : String
  playlistUrl : String
  youtubeUrl : String
  tracksAdded : Nat
  tracksTotal : Nat
  details : List OutcomeR
deriving Repr, DecidableEq

/-- `search_and_create_playlist` (browser_auth.py lines 110-194).
`createRes`: the `create_playlist` call — an uncaught exception
(`Except.error`, which propagates, there is no try around it), an error
dict (`Sum.inr`), or a playlist id. `addRes`: the `add_playlist_items`
call; its exception is caught and only logged, so the returned dict is the
same either way — in particular `tracks_added` is `len(video_ids)`
regardless of the add step's outcome. -/
def searchAndCreatePlaylist (createRes : Except String (Sum String String))
    (search : String → Except String (List Candidate))
    (addRes : Except String Unit) (queries : List String) :
    Except String (Sum AssemblyResult String) :=
  match createRes with
  | .error e => .error e
  | .ok (.inr errDict) => .ok (.inr errDict)
  | .ok (.inl playlistId) =>
    let resolved := queries.map (resolveOne search)
    let details := resolved.map (fun p => p.1)
    let videoIds := resolved.filterMap (fun p => p.2)
    let _ := addRes
    .ok (.inl
      { playlistId := playlistId,
        playlistUrl := "https://music.youtube.com/playlist?list=" ++ playlistId,
        youtubeUrl := "https://www.youtube.com/playlist?list=" ++ playlistId,
        tracksAdded := videoIds.length,
        tracksTotal := queries.length,
        details := details })

/-- The result dict of `PlaylistBuilder.create_playlist_from_ids`
(youtube_api.py lines 188-214). -/
structure IdsResult where
  playlistId : String
  videosAdded : Nat
  videosTotal : Nat
deriving Repr, DecidableEq

/-- `PlaylistBuilder.create_playlist_from_ids` (youtube_api.py lines
188-214): `add_to_playlist` returns one boolean per id (`addOutcome`), and
`videos_added` is `sum(add_results)` — only confirmed adds count here. -/
def createPlaylistFromIds (createRes : Except String String)
    (addOutcome : String → Bool) (videoIds : List String) :
    Except String IdsResult :=
  match createRes with
  | .error e => .error e
  | .ok playlistId =>
    let addResults := videoIds.map addOutcome
    .ok { playlistId := playlistId,
          videosAdded := addResults.count true,
          videosTotal := videoIds.length }

/-! ## `PlaylistManager.create_playlist_batch` (playlist.py lines 8-49)

The legacy batch path: it takes the first search result blindly, has no
per-query exception handling, and does not wrap the add step either. -/

/-- One entry of the legacy `details` list; a miss records only
`found: False`, with no reason string. -/
structure LegacyOutcome where
  query : String
  found : Bool
  title : Option String := none
  artist : Option String := none
  videoId : Option String := none
deriving Repr, DecidableEq

/-- The result dict returned by `create_playlist_batch`. -/
structure LegacyResult where
  playlistId : String
  playlistUrl : String
  trackCount : Nat
  details : List LegacyOutcome
deriving Repr, DecidableEq

/-- The sequential per-query loop of `create_playlist_batch` (playlist.py
lines 22-38): no `try` — the first search exception aborts the loop and
propagates. -/
def legacyLoop (search : String → Except String (List Candidate)) :
    List String → Except String (List (LegacyOutcome × Option String))
  | [] => .ok []
  | q :: rest =>
    match search q with
    | .error e => .error e
    | .ok searchResults =>
      let entry :=
        match searchResults with
        | [] => ({ query := q, found := false }, (none : Option String))
        | best :: _ =>
          ({ query := q, found := true, title := some best.title,
             artist := some (String.intercalate ", " best.artists),
             videoId := some best.videoId }, some best.videoId)
      match legacyLoop search rest with
      | .error e => .error e
      | .ok tail => .ok (entry :: tail)

/-- `create_playlist_batch` (playlist.py lines 8-49): an error dict from
`create_playlist` is re-raised as a RuntimeError, the loop has no per-query
exception capture, and the unguarded add step also propagates. -/
def createPlaylistBatch (createRes : Except String (Sum String String))
    (search : String → Except String (List Candidate))
    (addRes : Except String Unit) (queries : List String) :
    Except String LegacyResult :=
  match createRes with
  | .error e => .error e
  | .ok (.inr errDict) => .error ("Failed to create playlist: " ++ errDict)
  | .ok (.inl playlistId) =>
    match legacyLoop search queries with
    | .error e => .error e
    | .ok resolved =>
      let videoIds := resolved.filterMap (fun p => p.2)
      match (if videoIds.isEmpty then Except.ok () else addRes) with
      | .error e => .error e
      | .ok _ =>
        .ok { playlistId := playlistId,
              playlistUrl := "https://music.youtube.com/playlist?list=" ++ playlistId,
              trackCount := videoIds.length,
              details := resolved.map (fun p => p.1) }

/-! ## Python dictionaries as association lists (insertion order, overwrite
keeps the original position) -/

/-- Python `m[k] = v`: overwrite in place when the key exists, else append. -/
def dictInsert (m : List (String × V)) (k : String) (v : V) : List (String × V) :=
  if m.any (fun p => p.1 == k) then
    m.map (fun p => if p.1 == k then (p.1, v) else p)
  else m ++ [(k, v)]

/-- Python `m.get(k)`. -/
def dictGet (m : List (String × V)) (k : String) : Option V :=
  (m.find? (fun p => p.1 == k)).map (fun p => p.2)

/-- Python `m.get(k, default)`. -/
def dictGetD (m : List (String × V)) (k : String) (d : V) : V :=
  (dictGet m k).getD d

/-! ## `search_tracks_detailed` (browser_auth.py lines 248-289) -/

/-- One entry of the detailed per-query result list. -/
structure DetailedTrack where
  videoId : String
  title : String
  artists : List String
  album : Option String
  duration : Option String
  isExplicit : Bool
  thumbnails : List String
  isRemix : Bool
  isLive : Bool
  isCover : Bool
deriving Repr, DecidableEq

/-- The per-item dict built inside `search_tracks_detailed`. -/
def detailTrack (item : Candidate) : DetailedTrack :=
  let titleLower := pyLower item.title
  { videoId := item.videoId,
    title := item.title,
    artists := item.artists,
    album := item.album,
    duration := item.duration,
    isExplicit := item.isExplicit,
    thumbnails := item.thumbnails,
    isRemix := ["remix", "rmx", "rework", "edit"].any (fun w => strHas titleLower w),
    isLive := strHas titleLower "live",
    isCover := strHas titleLower "cover" }

/-- The value stored for one query: a list of detailed results, or the
`{"error": str(e)}` dict for a caught exception. -/
def detailedValue (search : String → Except String (List Candidate)) (query : String) :
    Sum (List DetailedTrack) String :=
  match search query with
  | .ok items => .inl (items.map detailTrack)
  | .error e => .inr e

/-- `search_tracks_detailed` (browser_auth.py lines 248-289): one dict
keyed by query, each entry a result list or an error dict; a later
duplicate of a query overwrites the earlier entry. -/
def searchTracksDetailed (search : String → Except String (List Candidate))
    (queries : List String) : List (String × Sum (List DetailedTrack) String) :=
  queries.foldl (fun m q => dictInsert m q (detailedValue search q)) []

/-! ## `ytm_setup_browser_auth_from_curl` (server.py lines 166-245)

The header extraction mirrors the two regexes
`-H\s+['\"]([^'\"]+)['\"]` and `-b\s+['\"]([^'\"]+)['\"]`: a dash and the
flag letter, one or more whitespace characters, an opening quote (single
or double), one or more non-quote characters (the capture), and a closing
quote (either kind). -/

/-- A quote character of the regex class. -/
def isQuoteChar (c : Char) : Bool :=
  c == '"' || c.toNat == 39

/-- Match the flag regex at the start of `cs`; on success return the
captured group and the rest of the input after the match. -/
def matchFlagAt (flag : Char) (cs : List Char) : Option (List Char × List Char) :=
  match cs with
  | '-' :: c :: rest =>
    if c == flag then
      match rest with
      | s :: _ =>
        if isSpaceChar s then
          match rest.dropWhile isSpaceChar with
          | q :: afterQuote =>
            if isQuoteChar q then
              let body := afterQuote.takeWhile (fun ch => !isQuoteChar ch)
              match body, afterQuote.drop body.length with
              | [], _ => none
              | _ :: _, e :: afterClose =>
                if isQuoteChar e then some (body, afterClose) else none
              | _ :: _, [] => none
            else none
          | [] => none
        else none
      | [] => none
    else none
  | _ => none

/-- All matches of the flag regex, scanned left to right without overlap
(`re.finditer`); the fuel starts at the input length and each step consumes
at least one character, so it never runs out. -/
def scanFlags (flag : Char) : Nat → List Char → List (List Char)
  | 0, _ => []
  | _, [] => []
  | fuel + 1, c :: t =>
    match matchFlagAt flag (c :: t) with
    | some (body, rest) => body :: scanFlags flag fuel rest
    | none => scanFlags flag fuel t

/-- Replace every left-to-right non-overlapping occurrence of a nonempty
pattern: Python `" ".join(s.split(pat))` with `rep = " "`. The fuel starts
at the input length; each step consumes at least one character. -/
def replaceSeq (pat rep : List Char) : Nat → List Char → List Char
  | 0, cs => cs
  | _, [] => []
  | fuel + 1, c :: t =>
    if pat.isPrefixOf (c :: t) then
      rep ++ replaceSeq pat rep fuel ((c :: t).drop pat.length)
    else
      c :: replaceSeq pat rep fuel t

/-- The header-dict extraction of `ytm_setup_browser_auth_from_curl`
(server.py lines 183-200): backslash cleanup, every `-H` capture split on
the first colon with the key stripped and lower-cased and the value
stripped, then the first `-b` capture stored (stripped) under `cookie`. -/
def parseCurlHeaders (curlCommand : String) : List (String × String) :=
  let cs0 := curlCommand.data
  let cs1 := replaceSeq ['\\', '\n'] [' '] cs0.length cs0
  let cs := replaceSeq ['\\'] [' '] cs1.length cs1
  let headerCaptures := scanFlags 'H' cs.length cs
  let headers := headerCaptures.foldl (fun m h =>
    match splitFirst ':' h with
    | none => m
    | some (k, v) =>
      dictInsert m ⟨(pyStrip k).map Char.toLower⟩ ⟨pyStrip v⟩) []
  match scanFlags 'b' cs.length cs with
  | [] => headers
  | cookie :: _ => dictInsert headers "cookie" ⟨pyStrip cookie⟩

/-- The `browser.json` structure assembled by
`ytm_setup_browser_auth_from_curl` (server.py lines 209-220). -/
structure BrowserJson where
  userAgent : String
  accept : String
  acceptLanguage : String
  contentType : String
  xGoogAuthUser : String
  xOrigin : String
  cookie : String
  authorization : Option String
deriving Repr, DecidableEq

/-- The error message returned when no cookie was captured. -/
def noCookieMsg : String :=
  "No cookies found in cURL command."

/-- `ytm_setup_browser_auth_from_curl` (server.py lines 166-245) up to the
point where `browser.json` is written: parse the headers, fail when the
`cookie` entry is absent or empty (Python truthiness of
`not headers.get(\x22cookie\x22)`), otherwise build the canonical map with
defaults for the auxiliary headers. -/
def ytmSetupBrowserAuthFromCurl (curlCommand : String) : Except String BrowserJson :=
  let headers := parseCurlHeaders curlCommand
  match dictGet headers "cookie" with
  | none => .error noCookieMsg
  | some c =>
    if c == "" then .error noCookieMsg
    else
      .ok { userAgent := dictGetD headers "user-agent" "Mozilla/5.0",
            accept := dictGetD headers "accept" "*/*",
            acceptLanguage := dictGetD headers "accept-language" "en-US,en;q=0.9",
            contentType := dictGetD headers "content-type" "application/json",
            xGoogAuthUser := dictGetD headers "x-goog-authuser" "0",
            xOrigin := dictGetD headers "x-origin" "https://music.youtube.com",
            cookie := c,
            authorization := dictGet headers "authorization" }

/-! ## `extract_from_existing_session` (tools/extract_browser_auth_manual.py
lines 61-88): the line-oriented fallback parser. -/

/-- Python `s.split(sep, 1)` for a multi-character separator: split at the
first occurrence, `none` when the separator does not occur. -/
def splitFirstSeq (pat : List Char) : List Char → Option (List Char × List Char)
  | [] => none
  | c :: t =>
    if pat.isPrefixOf (c :: t) then some ([], (c :: t).drop pat.length)
    else (splitFirstSeq pat t).map (fun p => (c :: p.1, p.2))

/-- The raw header dict built by `extract_from_existing_session`
(tools/extract_browser_auth_manual.py lines 65-68): each line containing
`: ` is split on the first occurrence of that separator, the key
lower-cased (neither side stripped). -/
def parseSessionLines (lines : List String) : List (String × String) :=
  lines.foldl (fun m line =>
    match splitFirstSeq [':', ' '] line.data with
    | none => m
    | some (k, v) =>
      dictInsert m ⟨k.map Char.toLower⟩ ⟨v⟩) []

/-- `extract_from_existing_session` (tools/extract_browser_auth_manual.py
lines 61-88), from the collected lines onward: parse the raw headers, then
assemble the fixed required-header map with hardcoded `Accept`,
`Content-Type` and `x-origin`; returns `none` when the cookie is missing
or empty. -/
def extractFromExistingSession (lines : List String) : Option BrowserJson :=
  let headers := parseSessionLines lines
  let cookie := dictGetD headers "cookie" ""
  if cookie == "" then none
  else
    some { userAgent := dictGetD headers "user-agent" "",
           accept := "*/*",
           acceptLanguage := dictGetD headers "accept-language" "en-US,en;q=0.5",
           contentType := "application/json",
           xGoogAuthUser := dictGetD headers "x-goog-authuser" "0",
           xOrigin := "https://music.youtube.com",
           cookie := cookie,
           authorization := none }

/-! ## Caller-facing tool layer (server.py) and the OAuth flow (auth.py)

Each MCP tool body is embedded over oracles for its remote calls; a body
that may raise is an `Except String` value, and `.error` stands for an
exception crossing the caller boundary uncaught. -/

/-- The `try/except` wrapper most tools use: an exception raised by the
body becomes the structured `{"error": str(e)}` dict (`Sum.inr`), exactly
like the body's own early error-dict returns; nothing propagates. -/
def toolWrap (body : Except String (Sum α String)) : Except String (Sum α String) :=
  match body with
  | .ok v => .ok v
  | .error e => .ok (.inr e)

/-- The dict returned by `AuthManager.start_oauth` (auth.py lines 63-75). -/
structure AuthCodeInfo where
  verificationUrl : String
  userCode : String
  deviceCode : String
  interval : String
deriving Repr, DecidableEq

/-- `AuthManager.complete_oauth` (auth.py lines 77-111): raises a
`RuntimeError` when no handshake is pending, otherwise exchanges the
device code (which may itself raise) and reports success. -/
def completeOauth (pendingCredentials : Option (String × String))
    (tokenFromCode : Except String String) (deviceCode : String) :
    Except String String :=
  let _ := deviceCode
  match pendingCredentials with
  | none => .error "No pending OAuth flow. Call start_oauth first."
  | some _ =>
    match tokenFromCode with
    | .error e => .error e
    | .ok _ => .ok "Authentication successful. oauth.json and oauth_creds.json created."

/-- `ytm_get_auth_url` (server.py lines 18-27): returns
`auth_manager.start_oauth(...)` with no `try/except`, so an exception in
the handshake propagates to the caller boundary. -/
def ytmGetAuthUrl (startOauthRes : Except String AuthCodeInfo) :
    Except String AuthCodeInfo :=
  startOauthRes

/-- `ytm_authenticate` (server.py lines 29-35): returns
`auth_manager.complete_oauth(device_code)` with no `try/except`. -/
def ytmAuthenticate (pendingCredentials : Option (String × String))
    (tokenFromCode : Except String String) (deviceCode : String) :
    Except String String :=
  completeOauth pendingCredentials tokenFromCode deviceCode

/-- `ytm_search_tracks` (server.py lines 37-71): inside one `try`, the
not-authenticated and missing-token cases return error dicts, and any
exception is caught into an error dict. -/
def ytmSearchTracks (oauthFileExists : Bool) (accessToken : Except String (Option String))
    (batchRes : Except String (List (String × Sum (List DetailedTrack) String))) :
    Except String (Sum (List (String × Sum (List DetailedTrack) String)) String) :=
  toolWrap
    (if !oauthFileExists then .ok (.inr "Not authenticated. Please run authentication flow first.")
     else
       match accessToken with
       | .error e => .error e
       | .ok none => .ok (.inr "No access token found in oauth.json")
       | .ok (some _) => batchRes.map Sum.inl)

/-- `ytm_create_playlist_from_ids` (server.py lines 73-105): same wrapper
shape around `create_playlist_from_ids`. -/
def ytmCreatePlaylistFromIds (oauthFileExists : Bool)
    (accessToken : Except String (Option String)) (buildRes : Except String IdsResult) :
    Except String (Sum IdsResult String) :=
  toolWrap
    (if !oauthFileExists then .ok (.inr "Not authenticated. Please run authentication flow first.")
     else
       match accessToken with
       | .error e => .error e
       | .ok none => .ok (.inr "No access token found in oauth.json")
       | .ok (some _) => buildRes.map Sum.inl)

/-- `ytm_setup_browser_auth` (server.py lines 247-269): wraps
`setup_from_headers`, turning an exception into an error string. -/
def ytmSetupBrowserAuth (setupRes : Except String String) : Except String String :=
  match setupRes with
  | .ok msg => .ok msg
  | .error e => .ok ("Error setting up browser auth: " ++ e)

/-- `ytm_search_browser` (server.py lines 287-308): inside one `try`, an
unconfigured session returns an error dict and exceptions are caught. -/
def ytmSearchBrowser (isAuth : Bool)
    (runRes : Except String (List (String × Sum (List DetailedTrack) String))) :
    Except String (Sum (List (String × Sum (List DetailedTrack) String)) String) :=
  toolWrap
    (if !isAuth then .ok (.inr "Browser auth not configured. Run ytm_setup_browser_auth first.")
     else runRes.map Sum.inl)

/-- `ytm_create_playlist_browser` (server.py lines 310-333): same wrapper
shape around `search_and_create_playlist`. -/
def ytmCreatePlaylistBrowser (isAuth : Bool)
    (runRes : Except String (Sum AssemblyResult String)) :
    Except String (Sum (Sum AssemblyResult String) String) :=
  toolWrap
    (if !isAuth then .ok (.inr "Browser auth not configured. Run ytm_setup_browser_auth first.")
     else runRes.map Sum.inl)

/-- `ytm_create_playlist_ytmusic` (server.py lines 107-128): one `try`
around the legacy batch path. -/
def ytmCreatePlaylistYtmusic (runRes : Except String (Sum AssemblyResult String)) :
    Except String (Sum (Sum AssemblyResult String) String) :=
  toolWrap (runRes.map Sum.inl)

/-- The dict returned by `BrowserAuthManager.validate_auth` (browser_auth.py
lines 74-101): its own `try` turns any exception into a valid:false dict. -/
structure ValidationReport where
  valid : Bool
  message : String
  errMsg : Option String := none
  canSearch : Option Bool := none
deriving Repr, DecidableEq

/-- `BrowserAuthManager.validate_auth`: the probe is the pair of test
requests; an exception anywhere in them yields the failure dict. -/
def validateAuth (probe : Except String Bool) : ValidationReport :=
  match probe with
  | .ok canSearch =>
    { valid := true, message := "Browser authentication is working",
      canSearch := some canSearch }
  | .error e =>
    { valid := false, message := "Browser authentication failed", errMsg := some e }

/-- `ytm_validate_browser_auth` (server.py lines 271-285): an unconfigured
session returns a structured dict, otherwise `validate_auth` runs (which
catches its own exceptions). -/
def ytmValidateBrowserAuth (isAuth : Bool) (probe : Except String Bool) :
    Except String ValidationReport :=
  if !isAuth then
    .ok { valid := false,
          message := "No browser authentication found. Run ytm_setup_browser_auth first." }
  else .ok (validateAuth probe)

/-- `ytm_setup_browser_auth_from_curl` as a caller-facing tool (server.py
lines 166-245): the missing-cookie case is a structured early return, a
raising save is caught by the surrounding `try`, and on success the
validation outcome is reported. -/
def ytmSetupBrowserAuthFromCurlTool (curlCommand : String)
    (saveRes : Except String Unit) (valid : Bool) :
    Except String (Sum (BrowserJson × Bool) String) :=
  toolWrap
    (match ytmSetupBrowserAuthFromCurl curlCommand with
     | .error msg => .ok (.inr msg)
     | .ok bj =>
       match saveRes with
       | .error e => .error e
       | .ok _ => .ok (.inl (bj, valid)))

/-! ## Credential-file saving (browser_auth.py `setup_from_headers` lines
60-72, server.py lines 222-229): the write path as a filesystem trace. -/

/-- One filesystem operation of the save path. -/
inductive FsOp where
  | openTrunc (path : String)
  | writeData (path : String) (data : String)
  | closeFile (path : String)
  | rename (src : String) (dst : String)
deriving Repr, DecidableEq

/-- Effect of one operation on file contents (`none` = file absent). -/
def applyOp (fs : String → Option String) : FsOp → String → Option String
  | .openTrunc p => fun q => if q = p then some "" else fs q
  | .writeData p d => fun q => if q = p then some ((fs p).getD "" ++ d) else fs q
  | .closeFile _ => fs
  | .rename src dst => fun q =>
      if q = dst then fs src else if q = src then none else fs q

/-- Run a trace of operations. -/
def runOps (fs : String → Option String) : List FsOp → String → Option String
  | [] => fs
  | op :: rest => runOps (applyOp fs op) rest

/-- The trace of `setup_from_headers` (browser_auth.py lines 60-72):
`open(self.browser_json_path, \x22w\x22)` truncates the target in place,
then the auth JSON is written and the file closed — no temporary file and
no rename. The `json.dump` save of `ytm_setup_browser_auth_from_curl`
(server.py lines 222-229) produces the same trace shape. -/
def setupFromHeadersOps (path : String) (authJson : String) : List FsOp :=
  [.openTrunc path, .writeData path authJson, .closeFile path]

/-- Whether an operation is a rename. -/
def isRenameOp : FsOp → Bool
  | .rename _ _ => true
  | _ => false

/-- A concurrent `load` running after `k` steps of the save never observes
a torn state: it sees either the old content or the complete new content. -/
def noTornRead (fs : String → Option String) (ops : List FsOp)
    (path : String) (newContent : String) : Prop :=
  ∀ k ≤ ops.length, runOps fs (ops.take k) path = fs path
    ∨ runOps fs (ops.take k) path = some newContent

/-! ## Concrete fixtures and evaluation checks -/

/-- The two candidates of the spec's remix scenario (testable property,
spec.md section 8). -/
def candRemixC4 : Candidate :=
  { videoId := "v0", title := "Test Song (Artist Remix)", artists := ["Artist"] }

/-- Second candidate of the remix scenario. -/
def candPlainC4 : Candidate :=
  { videoId := "v1", title := "Test Song", artists := ["Artist"] }

/-- A search oracle that finds nothing, for the concrete witnesses. -/
def searchEmptyOracle : String → Except String (List Candidate) :=
  fun _ => .ok []

/-- A search oracle returning one fixed candidate, for the C6 scenario. -/
def searchOneOracle : String → Except String (List Candidate) :=
  fun _ => .ok [{ videoId := "vid1", title := "Song", artists := ["A"] }]

/-- A search oracle that raises on the query "b", for the legacy-path
counterexample. -/
def searchBoomOracle : String → Except String (List Candidate) :=
  fun q =>
    if q = "b" then .error "boom"
    else .ok [{ videoId := "vid1", title := "Song", artists := ["A"] }]

/-- The concrete cURL input used in the C7 witness. -/
def curlWithCookie : String := "curl -H \"cookie: __Secure-3PAPISID=x\""

/-- The browser.json the normalizer produces for `curlWithCookie`. -/
def browserJsonW : BrowserJson :=
  { userAgent := "Mozilla/5.0", accept := "*/*",
    acceptLanguage := "en-US,en;q=0.9", contentType := "application/json",
    xGoogAuthUser := "0", xOrigin := "https://music.youtube.com",
    cookie := "__Secure-3PAPISID=x", authorization := none }

example : selectBest [] "x" = none := by decide

example :
    parseCurlHeaders "curl -H \"authorization: SAPISIDHASH abc\" https://x"
    = [("authorization", "SAPISIDHASH abc")] := by decide

example :
    ytmSetupBrowserAuthFromCurl "curl -H \"authorization: SAPISIDHASH abc\""
    = .error noCookieMsg := rfl

example :
    ytmSetupBrowserAuthFromCurl "curl -H \"cookie: __Secure-3PAPISID=x\""
    = .ok { userAgent := "Mozilla/5.0", accept := "*/*",
            acceptLanguage := "en-US,en;q=0.9", contentType := "application/json",
            xGoogAuthUser := "0", xOrigin := "https://music.youtube.com",
            cookie := "__Secure-3PAPISID=x", authorization := none } := rfl

example :
    extractFromExistingSession ["accept: */*", "cookie: __Secure-3PAPISID=x"]
    = some { userAgent := "", accept := "*/*",
             acceptLanguage := "en-US,en;q=0.5", contentType := "application/json",
             xGoogAuthUser := "0", xOrigin := "https://music.youtube.com",
             cookie := "__Secure-3PAPISID=x", authorization := none } := by decide

example : extractFromExistingSession ["accept: */*"] = none := by decide

example :
    selectBest
      [{ videoId := "v0", title := "Test Song (Artist Remix)", artists := ["Artist"] },
       { videoId := "v1", title := "Test Song", artists := ["Artist"] }]
      "Test Song (Artist Remix)"
    = some { videoId := "v0", title := "Test Song (Artist Remix)", artists := ["Artist"] } := by
  decide

example :
    score "Test Song (Artist Remix)"
      { videoId := "v0", title := "Test Song (Artist Remix)", artists := ["Artist"] } = 5 := by
  decide

example :
    score "zzz" { videoId := "vb", title := "great bootleg", artists := [] } = 0 := by
  decide

example :
    specScoreC1 "zzz" { videoId := "vb", title := "great bootleg", artists := [] } = -5 := by
  decide

/-! ## Helper lemmas: stable sort heads -/

theorem sortS_head (r : α → α → Bool) (x : α) (xs : List α) :
    (sortS r (x :: xs)).head? = some (firstBy r x xs) := by
  induction xs generalizing x with
  | nil => rfl
  | cons y ys ih =>
    show (insertS r x (sortS r (y :: ys))).head? = _
    rcases hs : sortS r (y :: ys) with _ | ⟨b, rest⟩
    · exact absurd (hs ▸ ih y) (by simp)
    · have hb : b = firstBy r y ys := by
        have := ih y
        rw [hs] at this
        simpa using this
      simp only [insertS, firstBy, hb]
      split <;> simp

theorem firstBy_mem (r : α → α → Bool) (x : α) (xs : List α) :
    firstBy r x xs ∈ x :: xs := by
  induction xs generalizing x with
  | nil => simp [firstBy]
  | cons y ys ih =>
    simp only [firstBy]
    split
    · simp
    · have := ih y
      simp only [List.mem_cons] at this ⊢
      tauto

theorem firstBy_score_ge (x : Int × α) (xs : List (Int × α)) :
    ∀ y ∈ x :: xs, y.1 ≤ (firstBy scoreDescBefore x xs).1 := by
  induction xs generalizing x with
  | nil => simp [firstBy]
  | cons z zs ih =>
    intro y hy
    simp only [firstBy]
    have hz := ih z
    split
    · next hcond =>
      simp only [scoreDescBefore, decide_eq_true_eq] at hcond
      rcases List.mem_cons.mp hy with h | h
      · exact h ▸ le_refl _
      · exact le_trans (hz y h) hcond
    · next hcond =>
      simp only [scoreDescBefore, decide_eq_true_eq, not_le] at hcond
      rcases List.mem_cons.mp hy with h | h
      · exact h ▸ le_of_lt hcond
      · exact hz y h

theorem firstBy_map (f : α → β) (r : α → α → Bool) (r' : β → β → Bool)
    (hr : ∀ a b, r' (f a) (f b) = r a b) (x : α) (xs : List α) :
    firstBy r' (f x) (xs.map f) = f (firstBy r x xs) := by
  induction xs generalizing x with
  | nil => rfl
  | cons y ys ih =>
    simp only [List.map_cons, firstBy, ih y, hr]
    split <;> rfl

theorem firstBy_stable_lex (x : Int × Nat × Candidate) (xs : List (Int × Nat × Candidate))
    (h : List.Pairwise (fun a b => a.2.1 < b.2.1) (x :: xs)) :
    firstBy scoreDescBefore x xs = firstBy specRankBefore x xs := by
  induction xs generalizing x with
  | nil => rfl
  | cons y ys ih =>
    have hpw := List.pairwise_cons.mp h
    have hrec : firstBy scoreDescBefore y ys = firstBy specRankBefore y ys := ih y hpw.2
    have hbmem : firstBy specRankBefore y ys ∈ y :: ys := firstBy_mem _ y ys
    have hrank : x.2.1 < (firstBy specRankBefore y ys).2.1 := hpw.1 _ hbmem
    simp only [firstBy, hrec]
    have hcond : scoreDescBefore x (firstBy specRankBefore y ys)
        = specRankBefore x (firstBy specRankBefore y ys) := by
      simp only [scoreDescBefore, specRankBefore]
      rw [decide_eq_decide]
      constructor
      · intro hle
        rcases lt_or_eq_of_le hle with hlt | heq
        · exact Or.inl hlt
        · exact Or.inr ⟨heq.symm, le_of_lt hrank⟩
      · rintro (hlt | ⟨heq, -⟩)
        · exact le_of_lt hlt
        · exact le_of_eq heq.symm
    rw [hcond]

theorem enumFrom_rank_pairwise (query : String) (l : List Candidate) :
    ∀ n, List.Pairwise (fun a b => a.2.1 < b.2.1)
      ((List.enumFrom n l).map (fun p => (score query p.2, p.1, p.2))) := by
  induction l with
  | nil => intro n; simp
  | cons c cs ih =>
    intro n
    simp only [List.enumFrom, List.map_cons, List.pairwise_cons]
    refine ⟨?_, ih (n + 1)⟩
    intro b hb
    simp only [List.mem_map] at hb
    obtain ⟨p, hp, rfl⟩ := hb
    have : n + 1 ≤ p.1 := by
      clear ih
      induction cs generalizing n with
      | nil => simp [List.enumFrom] at hp
      | cons d ds ih2 =>
        simp only [List.enumFrom, List.mem_cons] at hp
        rcases hp with rfl | hp
        · exact le_refl _
        · exact le_trans (Nat.le_succ _) (ih2 (n + 1) hp)
    simpa using this

theorem enumFrom_map_proj (query : String) (l : List Candidate) :
    ∀ n, ((List.enumFrom n l).map (fun p => (score query p.2, p.1, p.2))).map
        (fun t => (t.1, t.2.2))
      = l.map (fun r => (score query r, r)) := by
  induction l with
  | nil => intro n; rfl
  | cons c cs ih =>
    intro n
    simp only [List.enumFrom, List.map_cons, ih (n + 1)]

theorem selectBest_cons (r : Candidate) (rs : List Candidate) (q : String) :
    selectBest (r :: rs) q
      = some ((firstBy scoreDescBefore (score q r, r)
          (rs.map (fun c => (score q c, c)))).2) := by
  simp only [selectBest, List.isEmpty_cons, Bool.false_eq_true, if_false, List.map_cons]
  rw [sortS_head]
  rfl

theorem selectBest_pick (results : List Candidate) (q : String) (h : results ≠ []) :
    ∃ c ∈ results, selectBest results q = some c
      ∧ ∀ d ∈ results, score q d ≤ score q c := by
  rcases results with _ | ⟨r, rs⟩
  · exact absurd rfl h
  · have hhead := selectBest_cons r rs q
    set p := firstBy scoreDescBefore (score q r, r) (rs.map (fun c => (score q c, c))) with hp
    have hmem : p ∈ (r :: rs).map (fun c => (score q c, c)) := by
      rw [List.map_cons]
      exact firstBy_mem _ _ _
    obtain ⟨a, ha, hpa⟩ := List.mem_map.mp hmem
    refine ⟨a, ha, ?_, ?_⟩
    · rw [hhead, ← hpa]
    · intro d hd
      have hd' : (score q d, d) ∈ (score q r, r) :: rs.map (fun c => (score q c, c)) := by
        have := List.mem_map_of_mem (fun c => (score q c, c)) hd
        simpa using this
      have := firstBy_score_ge (score q r, r) (rs.map (fun c => (score q c, c))) _ hd'
      rw [← hp] at this
      rw [← hpa] at this
      exact this

/-- Claim C1, corrected (the source's penalty word list has no "bootleg"):
the score `_select_best_match` assigns is exactly the sum of these terms —
+10 when the case-folded title contains the case-folded query, −5 when the
title contains one of "remix", "rmx", "rework", "edit", −3 for "live", −4
for "cover", +2 when some artist name contains "topic", +1 when the query
contains "explicit" and the candidate is flagged explicit — and the
selector returns a candidate of maximal score from every non-empty list. -/
theorem selector_score_terms_and_maximality :
    (∀ (q : String) (c : Candidate),
      score q c =
        (if strHas (pyLower c.title) (pyLower q) then 10 else 0)
        + (if strHas (pyLower c.title) "remix" ∨ strHas (pyLower c.title) "rmx"
              ∨ strHas (pyLower c.title) "rework" ∨ strHas (pyLower c.title) "edit"
           then -5 else 0)
        + (if strHas (pyLower c.title) "live" then -3 else 0)
        + (if strHas (pyLower c.title) "cover" then -4 else 0)
        + (if ∃ a ∈ c.artists, strHas (pyLower a) "topic" then 2 else 0)
        + (if strHas (pyLower q) "explicit" ∧ c.isExplicit then 1 else 0))
    ∧ (∀ (results : List Candidate) (q : String), results ≠ [] →
        ∃ c ∈ results, selectBest results q = some c
          ∧ ∀ d ∈ results, score q d ≤ score q c) := by
  constructor
  · intro q c
    have hpen : (["remix", "rmx", "rework", "edit"].any
        (fun w => strHas (pyLower c.title) w) = true)
        ↔ (strHas (pyLower c.title) "remix" ∨ strHas (pyLower c.title) "rmx"
            ∨ strHas (pyLower c.title) "rework" ∨ strHas (pyLower c.title) "edit") := by
      simp
    have htopic : ((!c.artists.isEmpty && c.artists.any
        (fun a => strHas (pyLower a) "topic")) = true)
        ↔ (∃ a ∈ c.artists, strHas (pyLower a) "topic") := by
      rw [Bool.and_eq_true, List.any_eq_true]
      constructor
      · rintro ⟨-, a, ha, hpa⟩
        exact ⟨a, ha, hpa⟩
      · rintro ⟨a, ha, hpa⟩
        refine ⟨?_, a, ha, hpa⟩
        simp [List.isEmpty_iff, List.ne_nil_of_mem ha]
    have hexp : ((strHas (pyLower q) "explicit" && c.isExplicit) = true)
        ↔ (strHas (pyLower q) "explicit" ∧ c.isExplicit) := by
      simp
    simp only [score, hpen, htopic, hexp]
  · exact fun results q h => selectBest_pick results q h

/-- Claim C1 counterexample: the claim's penalty list includes "bootleg",
but the source checks only "remix", "rmx", "rework", "edit" — on a title
containing "bootleg" (and no other keyword) the code's score is 0 while
the claimed sum (`specScoreC1`, written from the spec's word list) is −5. -/
theorem selector_score_bootleg_mismatch :
    score "zzz" { videoId := "vb", title := "great bootleg", artists := [] } = 0
    ∧ specScoreC1 "zzz" { videoId := "vb", title := "great bootleg", artists := [] } = -5 := by
  constructor <;> decide

/-- Witness for `selector_score_terms_and_maximality`: the maximality part
applied to a concrete one-candidate list. -/
theorem selector_score_terms_and_maximality_witness :
    ∃ c ∈ [{ videoId := "v0", title := "Test Song (Artist Remix)",
             artists := ["Artist"] : Candidate }],
      selectBest [{ videoId := "v0", title := "Test Song (Artist Remix)",
                    artists := ["Artist"] : Candidate }] "Test Song" = some c
        ∧ ∀ d ∈ [{ videoId := "v0", title := "Test Song (Artist Remix)",
                   artists := ["Artist"] : Candidate }],
            score "Test Song" d ≤ score "Test Song" c :=
  selector_score_terms_and_maximality.2 _ "Test Song" (by decide)

set_option maxHeartbeats 1600000

/-- Claim C2: for every candidate list the selector's output equals the
first element of the list sorted by descending score with ties broken by
ascending `sourceRank` (the input position): Python's `list.sort` is
stable, so the head of the code's score-descending sort is exactly the
head of the spec's lexicographic order. -/
theorem selector_eq_head_of_spec_order (results : List Candidate) (q : String) :
    selectBest results q
      = ((specSortedCandidates q results).head?).map (fun t => t.2.2) := by
  rcases results with _ | ⟨r, rs⟩
  · rfl
  · rw [selectBest_cons]
    have henum : specSortedCandidates q (r :: rs)
        = sortS specRankBefore ((score q r, 0, r) ::
            (List.enumFrom 1 rs).map (fun p => (score q p.2, p.1, p.2))) := rfl
    rw [henum, sortS_head, Option.map_some']
    have hpw : List.Pairwise (fun a b => a.2.1 < b.2.1)
        ((score q r, 0, r) ::
          (List.enumFrom 1 rs).map (fun p => (score q p.2, p.1, p.2))) := by
      have h0 := enumFrom_rank_pairwise q (r :: rs) 0
      simpa [List.enumFrom] using h0
    have hstable := firstBy_stable_lex _ _ hpw
    have hproj := firstBy_map (fun t : Int × Nat × Candidate => (t.1, t.2.2))
      scoreDescBefore scoreDescBefore (fun a b => rfl)
      (score q r, 0, r) ((List.enumFrom 1 rs).map (fun p => (score q p.2, p.1, p.2)))
    simp only [enumFrom_map_proj q rs 1] at hproj
    rw [hproj, hstable]

set_option maxHeartbeats 200000

/-- Claim C3: the selector returns `None` exactly on an empty candidate
list, and on a non-empty list it returns an element of the input list. -/
theorem selector_membership_and_none_iff_empty (results : List Candidate) (q : String) :
    (selectBest results q = none ↔ results = [])
    ∧ (results ≠ [] → ∃ c ∈ results, selectBest results q = some c) := by
  rcases results with _ | ⟨r, rs⟩
  · exact ⟨by simp [selectBest], fun h => absurd rfl h⟩
  · constructor
    · rw [selectBest_cons]
      simp
    · intro h
      obtain ⟨c, hc, hsel, -⟩ := selectBest_pick (r :: rs) q h
      exact ⟨c, hc, hsel⟩

/-- Witness for `selector_membership_and_none_iff_empty`: the non-empty
part applied to a concrete one-candidate list. -/
theorem selector_membership_witness :
    ∃ c ∈ [{ videoId := "v1", title := "Test Song", artists := ["Artist"] : Candidate }],
      selectBest [{ videoId := "v1", title := "Test Song",
                    artists := ["Artist"] : Candidate }] "Test Song" = some c :=
  (selector_membership_and_none_iff_empty _ "Test Song").2 (by decide)

/-- Claim C4 counterexample: for the query "Test Song (Artist Remix)" the
selector picks the FIRST candidate (sourceRank 0), not the plain one: the
+10 term checks that the title contains the full case-folded query, and
"test song (artist remix)" is not a substring of "test song", so the
scores are 5 versus 0. -/
theorem remix_scenario_expectation_false :
    selectBest [candRemixC4, candPlainC4] "Test Song (Artist Remix)" ≠ some candPlainC4
    ∧ selectBest [candRemixC4, candPlainC4] "Test Song (Artist Remix)" = some candRemixC4 := by
  constructor <;> decide

/-- Claim C4, corrected: on the spec's remix scenario the selector picks
the candidate with sourceRank 0 — its title contains the full query
(+10 − 5 = 5) while "Test Song" does not contain the query (score 0). -/
theorem remix_scenario_amended :
    selectBest [candRemixC4, candPlainC4] "Test Song (Artist Remix)" = some candRemixC4
    ∧ score "Test Song (Artist Remix)" candRemixC4 = 5
    ∧ score "Test Song (Artist Remix)" candPlainC4 = 0 := by
  refine ⟨by decide, by decide, by decide⟩

/-! ## Helper lemmas: the per-query resolution loop -/

theorem resolveOne_props (s : String → Except String (List Candidate)) (q : String) :
    (resolveOne s q).1.query = q
    ∧ (resolveOne s q).1.found = (resolveOne s q).2.isSome
    ∧ ((resolveOne s q).1.found = false →
        (resolveOne s q).1.reason ≠ none ∨ (resolveOne s q).1.errMsg ≠ none) := by
  rcases hs : s q with e | l
  · simp [resolveOne, hs]
  · rcases l with _ | ⟨r, rs⟩
    · simp [resolveOne, hs]
    · rcases hb : selectBest (r :: rs) q with _ | c
      · simp [resolveOne, hs, hb]
      · simp [resolveOne, hs, hb]

theorem details_map_query (s : String → Except String (List Candidate)) :
    ∀ qs : List String,
      ((qs.map (resolveOne s)).map (fun p => p.1)).map (fun o => o.query) = qs := by
  intro qs
  induction qs with
  | nil => rfl
  | cons q rest ih =>
    simp only [List.map_cons, List.cons.injEq]
    exact ⟨(resolveOne_props s q).1, ih⟩

theorem videoIds_length_eq_found_count (s : String → Except String (List Candidate)) :
    ∀ qs : List String,
      ((qs.map (resolveOne s)).filterMap (fun p => p.2)).length
        = (((qs.map (resolveOne s)).map (fun p => p.1)).filter (fun o => o.found)).length := by
  intro qs
  induction qs with
  | nil => rfl
  | cons q rest ih =>
    simp only [List.map_cons, List.filterMap_cons, List.filter_cons]
    have hfe := (resolveOne_props s q).2.1
    rcases hp : (resolveOne s q).2 with _ | v
    · rw [hp] at hfe
      simp only [Option.isSome_none] at hfe
      simp only [hp, hfe, Bool.false_eq_true, if_false]
      exact ih
    · rw [hp] at hfe
      simp only [Option.isSome_some] at hfe
      simp only [hp, hfe, if_true]
      simp only [List.length_cons]
      rw [ih]

theorem legacyLoop_ok (search : String → Except String (List Candidate))
    (qs : List String) (h : ∀ q ∈ qs, ∃ l, search q = .ok l) :
    ∃ resolved, legacyLoop search qs = .ok resolved
      ∧ resolved.map (fun p => p.1.query) = qs := by
  induction qs with
  | nil => exact ⟨[], rfl, rfl⟩
  | cons q rest ih =>
    obtain ⟨l, hl⟩ := h q (List.mem_cons_self q rest)
    obtain ⟨tail, htail, hmap⟩ := ih (fun x hx => h x (List.mem_cons_of_mem q hx))
    rcases l with _ | ⟨best, others⟩
    · refine ⟨({ query := q, found := false }, none) :: tail, ?_, ?_⟩
      · simp only [legacyLoop, hl, htail]
      · simp [hmap]
    · refine ⟨({ query := q, found := true, title := some best.title,
                 artist := some (String.intercalate ", " best.artists),
                 videoId := some best.videoId }, some best.videoId) :: tail, ?_, ?_⟩
      · simp only [legacyLoop, hl, htail]
      · simp [hmap]

/-- Claim C5, corrected: in the browser-auth assemble path
(`search_and_create_playlist`) the claim holds — with a successfully
created playlist, one outcome per input query in input order whatever each
per-query search does (including raising), every failed query carrying a
reason or error message, and no abort. The legacy `create_playlist_batch`
path also emits one outcome per query in order when no search raises, but
it has no per-query exception capture. -/
theorem assemble_outcomes_per_query :
    (∀ (pid : String) (search : String → Except String (List Candidate))
        (addRes : Except String Unit) (queries : List String),
      ∃ a, searchAndCreatePlaylist (.ok (.inl pid)) search addRes queries = .ok (.inl a)
        ∧ a.details.map (fun o => o.query) = queries
        ∧ a.details.length = queries.length
        ∧ ∀ o ∈ a.details, o.found = false → o.reason ≠ none ∨ o.errMsg ≠ none)
    ∧ (∀ (pid : String) (search : String → Except String (List Candidate))
        (queries : List String),
      (∀ q ∈ queries, ∃ l, search q = .ok l) →
      ∃ res, createPlaylistBatch (.ok (.inl pid)) search (.ok ()) queries = .ok res
        ∧ res.details.map (fun o => o.query) = queries
        ∧ res.details.length = queries.length) := by
  constructor
  · intro pid search addRes queries
    refine ⟨_, rfl, ?_, ?_, ?_⟩
    · exact details_map_query search queries
    · show ((queries.map (resolveOne search)).map (fun p => p.1)).length = queries.length
      simp
    · intro o ho hfound
      rcases List.mem_map.mp ho with ⟨p, hp, rfl⟩
      rcases List.mem_map.mp hp with ⟨q, hq, rfl⟩
      exact (resolveOne_props search q).2.2 hfound
  · intro pid search queries h
    obtain ⟨resolved, hloop, hmap⟩ := legacyLoop_ok search queries h
    refine ⟨{ playlistId := pid,
              playlistUrl := "https://music.youtube.com/playlist?list=" ++ pid,
              trackCount := (resolved.filterMap (fun p => p.2)).length,
              details := resolved.map (fun p => p.1) }, ?_, ?_, ?_⟩
    · simp only [createPlaylistBatch, hloop, ite_self]
    · show (resolved.map (fun p => p.1)).map (fun o => o.query) = queries
      rw [List.map_map]
      exact hmap
    · have := congrArg List.length hmap
      simpa using this

/-- Claim C5 counterexample: the claim also covers the cited legacy
`create_playlist_batch` (playlist.py), which has no per-query try/except —
a search exception on the second of three queries aborts the whole batch
with an exception ("boom") and zero recorded outcomes, instead of three
outcomes with the failure captured. -/
theorem legacy_batch_aborts_on_search_error :
    createPlaylistBatch (.ok (.inl "PL")) searchBoomOracle (.ok ()) ["a", "b", "c"]
      = .error "boom" := rfl

/-- Witness for `assemble_outcomes_per_query`: both parts at concrete
batches. -/
theorem assemble_outcomes_per_query_witness :
    (∃ a, searchAndCreatePlaylist (.ok (.inl "PL")) searchEmptyOracle (.ok ()) ["a", "b"]
        = .ok (.inl a)
      ∧ a.details.map (fun o => o.query) = ["a", "b"]
      ∧ a.details.length = ["a", "b"].length
      ∧ ∀ o ∈ a.details, o.found = false → o.reason ≠ none ∨ o.errMsg ≠ none)
    ∧ (∃ res, createPlaylistBatch (.ok (.inl "PL")) searchOneOracle (.ok ()) ["a"] = .ok res
      ∧ res.details.map (fun o => o.query) = ["a"]
      ∧ res.details.length = (["a"] : List String).length) :=
  ⟨assemble_outcomes_per_query.1 "PL" searchEmptyOracle (.ok ()) ["a", "b"],
   assemble_outcomes_per_query.2 "PL" searchOneOracle ["a"] (fun _ _ => ⟨_, rfl⟩)⟩

/-- Claim C6, corrected: `tracks_total` is the batch size and
`tracks_added ≤ tracks_total`, but `tracks_added` counts the MATCHED
identifiers (`len(video_ids)`), not the confirmed adds — the result dict
is identical whether `add_playlist_items` succeeds or raises. In the OAuth
path, `create_playlist_from_ids` does count only per-item confirmed adds. -/
theorem assemble_counts (pid : String)
    (search : String → Except String (List Candidate))
    (addRes addRes2 : Except String Unit) (queries : List String) :
    ∃ a, searchAndCreatePlaylist (.ok (.inl pid)) search addRes queries = .ok (.inl a)
      ∧ a.tracksTotal = queries.length
      ∧ a.tracksAdded = (a.details.filter (fun o => o.found)).length
      ∧ a.tracksAdded ≤ a.tracksTotal
      ∧ searchAndCreatePlaylist (.ok (.inl pid)) search addRes2 queries = .ok (.inl a)
      ∧ ∀ (pid2 : String) (addOutcome : String → Bool) (ids : List String),
          ∃ b, createPlaylistFromIds (.ok pid2) addOutcome ids = .ok b
            ∧ b.videosAdded = (ids.map addOutcome).count true
            ∧ b.videosAdded ≤ b.videosTotal := by
  refine ⟨_, rfl, rfl, ?_, ?_, rfl, ?_⟩
  · exact videoIds_length_eq_found_count search queries
  · show ((queries.map (resolveOne search)).filterMap (fun p => p.2)).length ≤ queries.length
    calc ((queries.map (resolveOne search)).filterMap (fun p => p.2)).length
        ≤ (queries.map (resolveOne search)).length := List.length_filterMap_le _ _
      _ = queries.length := List.length_map _ _
  · intro pid2 addOutcome ids
    refine ⟨_, rfl, rfl, ?_⟩
    show ((ids.map addOutcome).count true) ≤ ids.length
    calc (ids.map addOutcome).count true
        ≤ (ids.map addOutcome).length := List.count_le_length _ _
      _ = ids.length := List.length_map _ _

/-- Claim C6 counterexample: with one matched query and a raising
`add_playlist_items` call, the result dict is the same as with a
succeeding one and still reports `tracks_added = 1`, although no
identifier was confirmed added — the add-step failure IS counted. -/
theorem assemble_counts_add_failure :
    searchAndCreatePlaylist (.ok (.inl "PL")) searchOneOracle
        (.error "add_playlist_items failed") ["q1"]
      = searchAndCreatePlaylist (.ok (.inl "PL")) searchOneOracle (.ok ()) ["q1"]
    ∧ ∃ a, searchAndCreatePlaylist (.ok (.inl "PL")) searchOneOracle
          (.error "add_playlist_items failed") ["q1"] = .ok (.inl a)
        ∧ a.tracksAdded = 1 :=
  ⟨rfl, ⟨_, rfl, rfl⟩⟩

/-- Witness for `assemble_counts` at a concrete batch. -/
theorem assemble_counts_witness :
    ∃ a, searchAndCreatePlaylist (.ok (.inl "PL")) searchOneOracle (.ok ()) ["q1", "q2"]
        = .ok (.inl a)
      ∧ a.tracksTotal = ["q1", "q2"].length
      ∧ a.tracksAdded = (a.details.filter (fun o => o.found)).length
      ∧ a.tracksAdded ≤ a.tracksTotal
      ∧ searchAndCreatePlaylist (.ok (.inl "PL")) searchOneOracle
          (.error "boom") ["q1", "q2"] = .ok (.inl a)
      ∧ ∀ (pid2 : String) (addOutcome : String → Bool) (ids : List String),
          ∃ b, createPlaylistFromIds (.ok pid2) addOutcome ids = .ok b
            ∧ b.videosAdded = (ids.map addOutcome).count true
            ∧ b.videosAdded ≤ b.videosTotal :=
  assemble_counts "PL" searchOneOracle (.ok ()) (.error "boom") ["q1", "q2"]

/-! ## Helper lemmas: Python dict semantics -/

theorem dictGet_cons (a : String × V) (t : List (String × V)) (q : String) :
    dictGet (a :: t) q = if a.1 = q then some a.2 else dictGet t q := by
  by_cases h : a.1 = q
  · simp [dictGet, List.find?_cons_of_pos, h]
  · have hb : (a.1 == q) = false := by simpa using h
    simp [dictGet, List.find?_cons_of_neg, hb, h]

theorem dictGet_overwrite (m : List (String × V)) (k : String) (v : V) (q : String) :
    dictGet (m.map (fun p => if p.1 == k then (p.1, v) else p)) q
      = if q = k
        then (if m.any (fun p => p.1 == k) then some v else none)
        else dictGet m q := by
  induction m with
  | nil => simp [dictGet]
  | cons a t ih =>
    simp only [List.map_cons, List.any_cons]
    have hhead : ((if a.1 == k then (a.1, v) else a) : String × V).1 = a.1 := by
      split <;> rfl
    rw [dictGet_cons, dictGet_cons, hhead]
    by_cases hak : a.1 = k
    · have hb : (a.1 == k) = true := by simpa using hak
      by_cases haq : a.1 = q
      · have hqk : q = k := haq.symm.trans hak
        rw [if_pos haq, if_pos hqk]
        simp only [hb]
        simp
      · have hqk : ¬ q = k := fun h => haq (hak.trans h.symm)
        simp only [if_neg haq]
        rw [ih]
        simp [hqk]
    · have hb : (a.1 == k) = false := by simpa using hak
      by_cases haq : a.1 = q
      · have hqk : ¬ q = k := fun h => hak (haq.trans h)
        rw [if_pos haq, if_neg hqk]
        simp only [hb]
        simp [haq]
      · simp only [if_neg haq]
        rw [ih]
        simp only [hb, Bool.false_or]

theorem dictGet_append_single (m : List (String × V)) (k : String) (v : V) (q : String) :
    dictGet (m ++ [(k, v)]) q
      = match dictGet m q with
        | some w => some w
        | none => if q = k then some v else none := by
  induction m with
  | nil =>
    simp only [List.nil_append]
    rw [dictGet_cons]
    by_cases h : q = k
    · subst h
      simp [dictGet]
    · have h' : ¬ k = q := fun hh => h hh.symm
      simp [dictGet, if_neg h, if_neg h']
  | cons a t ih =>
    rw [List.cons_append, dictGet_cons, dictGet_cons]
    by_cases h : a.1 = q
    · simp [h]
    · simp [h, ih]

theorem any_key_eq_false_imp (m : List (String × V)) (k : String)
    (h : m.any (fun p => p.1 == k) = false) : dictGet m k = none := by
  induction m with
  | nil => rfl
  | cons a t ih =>
    simp only [List.any_cons, Bool.or_eq_false_iff] at h
    rw [dictGet_cons]
    have hak : ¬ a.1 = k := by simpa using h.1
    simp [hak, ih h.2]

theorem dictGet_insert (m : List (String × V)) (k : String) (v : V) (q : String) :
    dictGet (dictInsert m k v) q = if q = k then some v else dictGet m q := by
  by_cases hany : m.any (fun p => p.1 == k) = true
  · simp only [dictInsert, hany, if_true]
    rw [dictGet_overwrite]
    by_cases hqk : q = k
    · simp [hqk, hany]
    · simp [hqk]
  · have hany' : m.any (fun p => p.1 == k) = false := Bool.eq_false_iff.mpr hany
    simp only [dictInsert, hany', Bool.false_eq_true, if_false]
    rw [dictGet_append_single]
    by_cases hqk : q = k
    · subst hqk
      rw [any_key_eq_false_imp m q hany']
    · rcases hm : dictGet m q with _ | w <;> simp [hqk, hm]

theorem dictInsert_keys (m : List (String × V)) (k : String) (v : V) :
    (dictInsert m k v).map (fun p => p.1)
      = if m.any (fun p => p.1 == k) then m.map (fun p => p.1)
        else m.map (fun p => p.1) ++ [k] := by
  by_cases hany : m.any (fun p => p.1 == k) = true
  · simp only [dictInsert, hany, if_true, List.map_map]
    apply List.map_congr_left
    intro p _
    simp only [Function.comp_apply]
    split <;> rfl
  · have hany' : m.any (fun p => p.1 == k) = false := Bool.eq_false_iff.mpr hany
    simp [dictInsert, hany']

theorem dictInsert_nodup_keys (m : List (String × V)) (k : String) (v : V)
    (h : (m.map (fun p => p.1)).Nodup) :
    ((dictInsert m k v).map (fun p => p.1)).Nodup := by
  rw [dictInsert_keys]
  by_cases hany : m.any (fun p => p.1 == k) = true
  · simpa [hany] using h
  · have hany' : m.any (fun p => p.1 == k) = false := Bool.eq_false_iff.mpr hany
    have hk : k ∉ m.map (fun p => p.1) := by
      intro hmem
      rcases List.mem_map.mp hmem with ⟨p, hp, hpk⟩
      have htrue : m.any (fun p => p.1 == k) = true :=
        List.any_eq_true.mpr ⟨p, hp, by simpa using hpk⟩
      rw [htrue] at hany'
      exact absurd hany' (by simp)
    simp only [hany', Bool.false_eq_true, if_false]
    rw [List.nodup_append]
    exact ⟨h, List.nodup_singleton k, by simpa using hk⟩

theorem dictInsert_length_le (m : List (String × V)) (k : String) (v : V) :
    (dictInsert m k v).length ≤ m.length + 1 := by
  by_cases hany : m.any (fun p => p.1 == k) = true
  · simp [dictInsert, hany]
  · have hany' : m.any (fun p => p.1 == k) = false := Bool.eq_false_iff.mpr hany
    simp [dictInsert, hany']

theorem foldl_dictInsert_get (f : String → V) (qs : List String) :
    ∀ (m : List (String × V)) (q : String),
      dictGet (qs.foldl (fun acc x => dictInsert acc x (f x)) m) q
        = if q ∈ qs then some (f q) else dictGet m q := by
  induction qs with
  | nil => intro m q; simp
  | cons x rest ih =>
    intro m q
    simp only [List.foldl_cons]
    rw [ih]
    by_cases hqr : q ∈ rest
    · simp [hqr, List.mem_cons]
    · rw [dictGet_insert]
      by_cases hqx : q = x
      · simp [hqr, hqx, List.mem_cons]
      · simp [hqr, hqx, List.mem_cons]

theorem foldl_dictInsert_nodup (f : String → V) (qs : List String) :
    ∀ (m : List (String × V)), (m.map (fun p => p.1)).Nodup →
      ((qs.foldl (fun acc x => dictInsert acc x (f x)) m).map (fun p => p.1)).Nodup := by
  induction qs with
  | nil => intro m h; simpa using h
  | cons x rest ih =>
    intro m h
    simp only [List.foldl_cons]
    exact ih _ (dictInsert_nodup_keys m x (f x) h)

theorem foldl_dictInsert_length (f : String → V) (qs : List String) :
    ∀ (m : List (String × V)),
      (qs.foldl (fun acc x => dictInsert acc x (f x)) m).length ≤ m.length + qs.length := by
  induction qs with
  | nil => intro m; simp
  | cons x rest ih =>
    intro m
    simp only [List.foldl_cons, List.length_cons]
    calc (rest.foldl (fun acc x => dictInsert acc x (f x)) (dictInsert m x (f x))).length
        ≤ (dictInsert m x (f x)).length + rest.length := ih _
      _ ≤ (m.length + 1) + rest.length :=
          Nat.add_le_add_right (dictInsert_length_le m x (f x)) _
      _ = m.length + (rest.length + 1) := by omega

/-- Claim C10: the batch search returns one dict keyed by query — an entry
exists exactly for the batch's queries, each entry is that query's own
result list or error dict (so a raising query affects no other entry), the
keys are duplicate-free, and duplicate queries collapse (a concrete
two-duplicate batch yields one entry). -/
theorem batch_search_dict_properties
    (search : String → Except String (List Candidate)) (queries : List String) :
    ((searchTracksDetailed search queries).map (fun p => p.1)).Nodup
    ∧ (∀ q, (dictGet (searchTracksDetailed search queries) q).isSome ↔ q ∈ queries)
    ∧ (∀ q ∈ queries,
        dictGet (searchTracksDetailed search queries) q = some (detailedValue search q))
    ∧ (searchTracksDetailed search queries).length ≤ queries.length
    ∧ (∀ (search2 : String → Except String (List Candidate)) (q : String),
        q ∈ queries → search2 q = search q →
        dictGet (searchTracksDetailed search2 queries) q
          = dictGet (searchTracksDetailed search queries) q)
    ∧ (searchTracksDetailed searchEmptyOracle ["a", "a"]).length = 1 := by
  refine ⟨?_, ?_, ?_, ?_, ?_, rfl⟩
  · exact foldl_dictInsert_nodup _ queries [] (by simp)
  · intro q
    rw [show searchTracksDetailed search queries
        = queries.foldl (fun acc x => dictInsert acc x (detailedValue search x)) [] from rfl]
    rw [foldl_dictInsert_get]
    by_cases hq : q ∈ queries <;> simp [hq, dictGet]
  · intro q hq
    rw [show searchTracksDetailed search queries
        = queries.foldl (fun acc x => dictInsert acc x (detailedValue search x)) [] from rfl]
    rw [foldl_dictInsert_get]
    simp [hq]
  · have := foldl_dictInsert_length (detailedValue search) queries []
    simpa using this
  · intro search2 q hq hsame
    rw [show searchTracksDetailed search queries
        = queries.foldl (fun acc x => dictInsert acc x (detailedValue search x)) [] from rfl]
    rw [show searchTracksDetailed search2 queries
        = queries.foldl (fun acc x => dictInsert acc x (detailedValue search2 x)) [] from rfl]
    rw [foldl_dictInsert_get, foldl_dictInsert_get]
    have hval : detailedValue search2 q = detailedValue search q := by
      simp only [detailedValue, hsame]
    simp [hq, hval]

/-- Witness for `batch_search_dict_properties` at a concrete batch. -/
theorem batch_search_dict_properties_witness :
    ((searchTracksDetailed searchEmptyOracle ["a"]).map (fun p => p.1)).Nodup
    ∧ (∀ q, (dictGet (searchTracksDetailed searchEmptyOracle ["a"]) q).isSome ↔ q ∈ ["a"])
    ∧ (∀ q ∈ ["a"],
        dictGet (searchTracksDetailed searchEmptyOracle ["a"]) q
          = some (detailedValue searchEmptyOracle q))
    ∧ (searchTracksDetailed searchEmptyOracle ["a"]).length ≤ (["a"] : List String).length
    ∧ (∀ (search2 : String → Except String (List Candidate)) (q : String),
        q ∈ ["a"] → search2 q = searchEmptyOracle q →
        dictGet (searchTracksDetailed search2 ["a"]) q
          = dictGet (searchTracksDetailed searchEmptyOracle ["a"]) q)
    ∧ (searchTracksDetailed searchEmptyOracle ["a", "a"]).length = 1 :=
  batch_search_dict_properties searchEmptyOracle ["a"]

/-! ## C7: header normalization -/

/-- Claim C7 counterexample: a cURL command carrying an authorization
header but no cookie still fails with the missing-cookie error, although
its normalized header set contains an authorization value — the failure
condition tests only the cookie, contradicting the claimed
"neither cookie nor authorization" condition. -/
theorem header_auth_only_still_fails :
    ytmSetupBrowserAuthFromCurl "curl -H \"authorization: SAPISIDHASH abc\""
      = .error noCookieMsg
    ∧ dictGet (parseCurlHeaders "curl -H \"authorization: SAPISIDHASH abc\"")
        "authorization" = some "SAPISIDHASH abc" :=
  ⟨rfl, by decide⟩

/-- Claim C7, corrected: normalization fails exactly when no nonempty
cookie value is present after parsing (an authorization value alone does
not prevent the failure); with a cookie present it succeeds, and the
canonical map carries that Cookie value, the parsed authorization when
present, and the defaults "*/*" and "application/json" when Accept or
Content-Type are absent. The line-oriented extractor fails under the same
cookie-only condition. -/
theorem header_normalization_cookie_iff :
    (∀ curl : String,
      ((∃ e, ytmSetupBrowserAuthFromCurl curl = .error e)
        ↔ (dictGet (parseCurlHeaders curl) "cookie" = none
            ∨ dictGet (parseCurlHeaders curl) "cookie" = some ""))
      ∧ (∀ bj, ytmSetupBrowserAuthFromCurl curl = .ok bj →
          dictGet (parseCurlHeaders curl) "cookie" = some bj.cookie
          ∧ bj.cookie ≠ ""
          ∧ bj.authorization = dictGet (parseCurlHeaders curl) "authorization"
          ∧ (dictGet (parseCurlHeaders curl) "accept" = none → bj.accept = "*/*")
          ∧ (dictGet (parseCurlHeaders curl) "content-type" = none →
              bj.contentType = "application/json")))
    ∧ (∀ lines : List String,
        (extractFromExistingSession lines = none
          ↔ (dictGet (parseSessionLines lines) "cookie" = none
              ∨ dictGet (parseSessionLines lines) "cookie" = some ""))
        ∧ (∀ bj, extractFromExistingSession lines = some bj →
            bj.cookie ≠ "" ∧ bj.accept = "*/*" ∧ bj.contentType = "application/json"
            ∧ dictGet (parseSessionLines lines) "cookie" = some bj.cookie)) := by
  constructor
  · intro curl
    constructor
    · constructor
      · rintro ⟨e, he⟩
        rcases h : dictGet (parseCurlHeaders curl) "cookie" with _ | c
        · exact Or.inl rfl
        · right
          simp only [ytmSetupBrowserAuthFromCurl, h] at he
          by_cases hc : c = ""
          · rw [hc]
          · have hcb : (c == "") = false := by simpa using hc
            rw [hcb] at he
            exact absurd he (by simp)
      · intro hor
        rcases hor with h | h
        · exact ⟨noCookieMsg, by simp only [ytmSetupBrowserAuthFromCurl, h]⟩
        · refine ⟨noCookieMsg, ?_⟩
          simp only [ytmSetupBrowserAuthFromCurl, h]
          rfl
    · intro bj hbj
      rcases h : dictGet (parseCurlHeaders curl) "cookie" with _ | c
      · simp only [ytmSetupBrowserAuthFromCurl, h] at hbj
        exact absurd hbj (by simp)
      · simp only [ytmSetupBrowserAuthFromCurl, h] at hbj
        by_cases hc : c = ""
        · have hcb : (c == "") = true := by simpa using hc
          rw [hcb] at hbj
          exact absurd hbj (by simp)
        · have hcb : (c == "") = false := by simpa using hc
          rw [hcb] at hbj
          simp only [Bool.false_eq_true, if_false, Except.ok.injEq] at hbj
          subst hbj
          refine ⟨rfl, hc, rfl, ?_, ?_⟩
          · intro ha
            simp [dictGetD, ha]
          · intro ha
            simp [dictGetD, ha]
  · intro lines
    constructor
    · constructor
      · intro hnone
        rcases h : dictGet (parseSessionLines lines) "cookie" with _ | c
        · exact Or.inl rfl
        · right
          simp only [extractFromExistingSession, dictGetD, h, Option.getD_some] at hnone
          by_cases hc : c = ""
          · rw [hc]
          · have hcb : (c == "") = false := by simpa using hc
            rw [hcb] at hnone
            exact absurd hnone (by simp)
      · intro hor
        rcases hor with h | h
        · simp [extractFromExistingSession, dictGetD, h]
        · simp [extractFromExistingSession, dictGetD, h]
    · intro bj hbj
      rcases h : dictGet (parseSessionLines lines) "cookie" with _ | c
      · simp only [extractFromExistingSession, dictGetD, h, Option.getD_none] at hbj
        exact absurd hbj (by simp)
      · simp only [extractFromExistingSession, dictGetD, h, Option.getD_some] at hbj
        by_cases hc : c = ""
        · have hcb : (c == "") = true := by simpa using hc
          rw [hcb] at hbj
          exact absurd hbj (by simp)
        · have hcb : (c == "") = false := by simpa using hc
          rw [hcb] at hbj
          simp only [Bool.false_eq_true, if_false, Option.some.injEq] at hbj
          subst hbj
          exact ⟨hc, rfl, rfl, rfl⟩

/-- Witness for `header_normalization_cookie_iff`: the success part at the
concrete cookie-bearing cURL input. -/
theorem header_normalization_cookie_iff_witness :
    dictGet (parseCurlHeaders curlWithCookie) "cookie" = some browserJsonW.cookie
    ∧ browserJsonW.cookie ≠ ""
    ∧ browserJsonW.authorization = dictGet (parseCurlHeaders curlWithCookie) "authorization"
    ∧ (dictGet (parseCurlHeaders curlWithCookie) "accept" = none → browserJsonW.accept = "*/*")
    ∧ (dictGet (parseCurlHeaders curlWithCookie) "content-type" = none →
        browserJsonW.contentType = "application/json") :=
  (header_normalization_cookie_iff.1 curlWithCookie).2 browserJsonW rfl

/-! ## C8: caller-facing operations -/

theorem toolWrap_ok (body : Except String (Sum α String)) :
    ∃ v, toolWrap body = .ok v := by
  cases body <;> exact ⟨_, rfl⟩

/-- Claim C8 counterexample: completing authorization with no pending
handshake raises a RuntimeError that `ytm_authenticate` does not catch —
an uncaught exception crosses the caller boundary, so not every operation
returns a structured result. -/
theorem authenticate_uncaught_exception :
    ytmAuthenticate none (.ok "token") "device-code"
      = .error "No pending OAuth flow. Call start_oauth first." := rfl

/-- Claim C8, corrected: every wrapped tool returns a structured result
(`Except.ok`) for every oracle outcome, but the two authorization
operations (`ytm_get_auth_url`, `ytm_authenticate`) have no try/except and
propagate exceptions from the underlying flow. -/
theorem tools_structured_results :
    (∀ (oauthFileExists : Bool) (tok : Except String (Option String))
        (batch : Except String (List (String × Sum (List DetailedTrack) String))),
        ∃ v, ytmSearchTracks oauthFileExists tok batch = .ok v)
    ∧ (∀ (oauthFileExists : Bool) (tok : Except String (Option String))
        (build : Except String IdsResult),
        ∃ v, ytmCreatePlaylistFromIds oauthFileExists tok build = .ok v)
    ∧ (∀ setupRes, ∃ v, ytmSetupBrowserAuth setupRes = .ok v)
    ∧ (∀ (isAuth : Bool) (runRes : Except String (List (String × Sum (List DetailedTrack) String))),
        ∃ v, ytmSearchBrowser isAuth runRes = .ok v)
    ∧ (∀ (isAuth : Bool) (runRes : Except String (Sum AssemblyResult String)),
        ∃ v, ytmCreatePlaylistBrowser isAuth runRes = .ok v)
    ∧ (∀ runRes : Except String (Sum AssemblyResult String),
        ∃ v, ytmCreatePlaylistYtmusic runRes = .ok v)
    ∧ (∀ (isAuth : Bool) (probe : Except String Bool),
        ∃ v, ytmValidateBrowserAuth isAuth probe = .ok v)
    ∧ (∀ (curlCommand : String) (saveRes : Except String Unit) (valid : Bool),
        ∃ v, ytmSetupBrowserAuthFromCurlTool curlCommand saveRes valid = .ok v)
    ∧ (∀ e : String, ytmGetAuthUrl (.error e) = .error e)
    ∧ (∀ (tok : Except String String) (dc : String),
        ytmAuthenticate none tok dc
          = .error "No pending OAuth flow. Call start_oauth first.") := by
  refine ⟨?_, ?_, ?_, ?_, ?_, ?_, ?_, ?_, fun e => rfl, fun tok dc => rfl⟩
  · intro e tok batch
    exact toolWrap_ok _
  · intro e tok build
    exact toolWrap_ok _
  · intro setupRes
    cases setupRes <;> exact ⟨_, rfl⟩
  · intro b r
    exact toolWrap_ok _
  · intro b r
    exact toolWrap_ok _
  · intro r
    exact toolWrap_ok _
  · intro isAuth probe
    cases isAuth <;> exact ⟨_, rfl⟩
  · intro curlCommand saveRes valid
    exact toolWrap_ok _

/-! ## C9: credential-file save -/

/-- Claim C9 counterexample: the save trace contains no rename and writes
the final path directly; starting from an absent file, a load after the
first operation (the truncating open) observes an empty file — a torn
state that is neither the old content nor the new one. -/
theorem save_not_atomic :
    (setupFromHeadersOps "browser.json" "AUTHJSON").all (fun op => !isRenameOp op) = true
    ∧ runOps (fun _ => none) ((setupFromHeadersOps "browser.json" "AUTHJSON").take 1)
        "browser.json" = some ""
    ∧ ¬ noTornRead (fun _ => none) (setupFromHeadersOps "browser.json" "AUTHJSON")
        "browser.json" "AUTHJSON" := by
  refine ⟨rfl, rfl, ?_⟩
  intro h
  have h1 := h 1 (by simp [setupFromHeadersOps])
  have hrun : runOps (fun _ => none)
      ((setupFromHeadersOps "browser.json" "AUTHJSON").take 1) "browser.json" = some "" := rfl
  rw [hrun] at h1
  rcases h1 with h1 | h1
  · exact Option.noConfusion h1
  · exact absurd h1 (by decide)

/-- Claim C9, corrected: `setup_from_headers` saves the credential file in
place — its trace is exactly truncate, write, close on the final path with
no rename at all — so whenever the new content is nonempty and the old
state was not an empty file, a concurrent load can observe a torn (empty)
state between the truncation and the write. -/
theorem save_overwrite_in_place (path authJson : String) (fs : String → Option String) :
    setupFromHeadersOps path authJson
      = [.openTrunc path, .writeData path authJson, .closeFile path]
    ∧ (∀ op ∈ setupFromHeadersOps path authJson, isRenameOp op = false)
    ∧ (authJson ≠ "" → fs path ≠ some "" →
        ¬ noTornRead fs (setupFromHeadersOps path authJson) path authJson) := by
  refine ⟨rfl, ?_, ?_⟩
  · intro op hop
    simp only [setupFromHeadersOps, List.mem_cons, List.not_mem_nil, or_false] at hop
    rcases hop with rfl | rfl | rfl <;> rfl
  · intro hjson hfs h
    have h1 := h 1 (by simp [setupFromHeadersOps])
    have hrun : runOps fs ((setupFromHeadersOps path authJson).take 1) path = some "" := by
      simp [setupFromHeadersOps, runOps, applyOp]
    rw [hrun] at h1
    rcases h1 with h1 | h1
    · exact hfs h1.symm
    · injection h1 with h2
      exact hjson h2.symm

/-- Witness for `save_overwrite_in_place` at a concrete path, content and
initial filesystem. -/
theorem save_overwrite_in_place_witness :
    setupFromHeadersOps "browser.json" "AUTH"
      = [.openTrunc "browser.json", .writeData "browser.json" "AUTH",
         .closeFile "browser.json"]
    ∧ (∀ op ∈ setupFromHeadersOps "browser.json" "AUTH", isRenameOp op = false)
    ∧ ¬ noTornRead (fun _ => none) (setupFromHeadersOps "browser.json" "AUTH")
        "browser.json" "AUTH" :=
  ⟨(save_overwrite_in_place "browser.json" "AUTH" (fun _ => none)).1,
   (save_overwrite_in_place "browser.json" "AUTH" (fun _ => none)).2.1,
   (save_overwrite_in_place "browser.json" "AUTH" (fun _ => none)).2.2
     (by decide) (fun hh => Option.noConfusion hh)⟩
